import Mathlib

/-!
Verification of the OpenHands-CLI streaming/token-dispatch layer and the
settings option builders, shallowly embedded from
`openhands_cli/shared/token_streaming.py`,
`openhands_cli/tui/core/token_streamer.py` and
`openhands_cli/tui/modals/settings/choices.py`.
-/

namespace OpenHandsCLI

/-- A Python attribute value that should be a string: it can be absent (or
`None`, which `getattr(.., .., None)` cannot distinguish from absence), a
present non-string value, or an actual string. -/
inductive PyStrField where
  | absent
  | nonString
  | str (s : String)
deriving DecidableEq

/-- The value found in a choice's `index` attribute when present:
`None`, `False`, or an integer. -/
inductive PyIndexVal where
  | pyNone
  | pyFalse
  | int (n : Int)
deriving DecidableEq

/-- The `delta` payload of a choice: optional `reasoning_content` and
`content` attributes. -/
structure Delta where
  reasoning_content : PyStrField
  content : PyStrField
deriving DecidableEq

/-- One candidate continuation inside a chunk. `index = none` models the
attribute being missing and `delta = none` models a missing or `None`
(falsy) delta, matching `getattr(choice, "delta", None)` followed by
`if not delta`. -/
structure Choice where
  index : Option PyIndexVal
  delta : Option Delta
deriving DecidableEq

/-- A streaming chunk: a list of choices. -/
structure LLMStreamChunk where
  choices : List Choice
deriving DecidableEq

/-- Result of extraction, from `token_streaming.StreamingContent`. -/
structure StreamingContent where
  reasoning : Option String := none
  content : Option String := none
deriving DecidableEq

/-- Model of `token_streaming.REASONING_HEADER`. -/
def REASONING_HEADER : String := "**Reasoning**:\n"

/-- Python `str.strip()`: remove leading and trailing whitespace. -/
def pyStrip (s : String) : String :=
  ⟨((s.data.dropWhile Char.isWhitespace).reverse.dropWhile Char.isWhitespace).reverse⟩

/-- The value of `getattr(choice, "index", 0) or 0`: a missing attribute
defaults to 0 and any falsy present value (`None`, `False`, `0`) is
replaced by 0. -/
def choiceIndex (c : Choice) : Int :=
  match c.index with
  | none => 0
  | some .pyNone => 0
  | some .pyFalse => 0
  | some (.int n) => n

/-- The body executed once a choice with index 0 and a truthy delta is
found: reasoning text iff `isinstance(reasoning, str) and reasoning.strip()`,
content text iff `isinstance(content, str) and content`. -/
def extractFromDelta (delta : Delta) : StreamingContent :=
  let reasoning_text : Option String :=
    match delta.reasoning_content with
    | .str s => if pyStrip s ≠ "" then some s else none
    | _ => none
  let content_text : Option String :=
    match delta.content with
    | .str s => if s ≠ "" then some s else none
    | _ => none
  ⟨reasoning_text, content_text⟩

/-- The `for choice in chunk.choices` loop of `extract_streaming_content`:
skip choices with a falsy delta, skip choices whose effective index is not
0, and return from the first remaining choice. -/
def extractLoop : List Choice → StreamingContent
  | [] => ⟨none, none⟩
  | c :: rest =>
    match c.delta with
    | none => extractLoop rest
    | some delta =>
      if choiceIndex c ≠ 0 then extractLoop rest
      else extractFromDelta delta

/-- Model of `token_streaming.extract_streaming_content`. -/
def extract_streaming_content (chunk : LLMStreamChunk) : StreamingContent :=
  extractLoop chunk.choices

/-- Python truthiness of an optional-string value (`if streaming.reasoning:`):
`None` and the empty string are falsy. -/
def pyTruthyStr : Option String → Bool
  | none => false
  | some s => s ≠ ""

/-- The state of the event loop handed to `TUITokenStreamer`: absent,
present and running, or present and not running.  This is the only part of
the loop that `schedule_threadsafe` inspects. -/
inductive LoopMode where
  | noLoop
  | running
  | notRunning
deriving DecidableEq

/-- The immutable part of a `TUITokenStreamer`: the optional write sink
(which may raise, modelled by `Except`) and the loop state.  The
`visualizer` field is stored but never read, so it is omitted. -/
structure StreamerConfig where
  write_callback : Option (String → Except String Unit)
  loop : LoopMode

/-- A log record; `TUITokenStreamer.on_token` only ever logs at warning
level. -/
inductive LogEntry where
  | debug (msg : String)
  | warning (msg : String)
  | error (msg : String)
deriving DecidableEq

/-- Whether a log entry is at warning level. -/
def LogEntry.isWarning : LogEntry → Bool
  | .warning _ => true
  | _ => false

/-- Observable effects of write scheduling: `requested` are the texts passed
to `_schedule_write`, `invoked` the texts the sink was synchronously called
with, `queued` the texts handed off to a running loop via
`run_coroutine_threadsafe`. -/
structure WriteEffects where
  requested : List String := []
  invoked : List String := []
  queued : List String := []
deriving DecidableEq

/-- Concatenation of effect records, in order of occurrence. -/
def WriteEffects.append (a b : WriteEffects) : WriteEffects :=
  ⟨a.requested ++ b.requested, a.invoked ++ b.invoked, a.queued ++ b.queued⟩

/-- Model of `TUITokenStreamer._schedule_write` composed with
`token_streaming.schedule_threadsafe`: with no sink the write is dropped;
with a sink and a running loop the callback is queued (a sink failure there
cannot reach the caller); with no loop, or a loop that is not running
(driven by `run_until_complete`), the sink runs synchronously, so its
failure propagates to the caller as the returned error. -/
def scheduleWrite (cfg : StreamerConfig) (text : String) :
    WriteEffects × Option String :=
  match cfg.write_callback with
  | none => (⟨[text], [], []⟩, none)
  | some sink =>
    match cfg.loop with
    | .running => (⟨[text], [], [text]⟩, none)
    | .noLoop | .notRunning =>
      match sink text with
      | .ok _ => (⟨[text], [text], []⟩, none)
      | .error e => (⟨[text], [text], []⟩, some e)

/-- The body of `TUITokenStreamer.on_token` without its `try`/`except`:
extraction, then the reasoning branch (setting the header flag and
prefixing `REASONING_HEADER` on the first reasoning fragment), then the
content branch.  An error carries the message together with the state and
effects accumulated before the raise, since Python keeps mutations made
before an exception. -/
def onTokenRaises (cfg : StreamerConfig) (headerEmitted : Bool)
    (chunk : LLMStreamChunk) :
    Except (String × Bool × WriteEffects) (Bool × WriteEffects) :=
  let streaming := extract_streaming_content chunk
  let step1 : Except (String × Bool × WriteEffects) (Bool × WriteEffects) :=
    if pyTruthyStr streaming.reasoning then
      let r := streaming.reasoning.getD ""
      let text := if headerEmitted then r else REASONING_HEADER ++ r
      match scheduleWrite cfg text with
      | (eff, some e) => .error (e, true, eff)
      | (eff, none) => .ok (true, eff)
    else .ok (headerEmitted, ⟨[], [], []⟩)
  match step1 with
  | .error x => .error x
  | .ok (st1, eff1) =>
    if pyTruthyStr streaming.content then
      let c := streaming.content.getD ""
      match scheduleWrite cfg c with
      | (eff2, some e) => .error (e, st1, eff1.append eff2)
      | (eff2, none) => .ok (st1, eff1.append eff2)
    else .ok (st1, eff1)

/-- The outcome of one `on_token` call: new header flag, write effects, and
log entries. -/
structure TokenResult where
  headerEmitted : Bool
  effects : WriteEffects
  logs : List LogEntry
deriving DecidableEq

/-- Model of `TUITokenStreamer.on_token`: the body wrapped in `try`/`except`, which
catches any exception and logs it at warning level. -/
def on_token (cfg : StreamerConfig) (headerEmitted : Bool)
    (chunk : LLMStreamChunk) : TokenResult :=
  match onTokenRaises cfg headerEmitted chunk with
  | .ok (st, eff) => ⟨st, eff, []⟩
  | .error (e, st, eff) =>
    ⟨st, eff, [.warning ("Token streaming error: " ++ e)]⟩

/-- Model of `TUITokenStreamer.reset`: clears the header-emitted flag. -/
def TUITokenStreamer.reset (_headerEmitted : Bool) : Bool := false

/-- Fold `on_token` over a sequence of chunks, accumulating effects. -/
def runTokens (cfg : StreamerConfig) (headerEmitted : Bool) :
    List LLMStreamChunk → Bool × WriteEffects
  | [] => (headerEmitted, ⟨[], [], []⟩)
  | c :: cs =>
    let r := on_token cfg headerEmitted c
    let (st, eff) := runTokens cfg r.headerEmitted cs
    (st, r.effects.append eff)

/-- The first text passed to `_schedule_write` in each call of a run (for a
chunk with a truthy reasoning fragment this is the reasoning text, possibly
header-prefixed). -/
def runFirstTexts (cfg : StreamerConfig) (headerEmitted : Bool) :
    List LLMStreamChunk → List (Option String)
  | [] => []
  | c :: cs =>
    let r := on_token cfg headerEmitted c
    r.effects.requested.head? :: runFirstTexts cfg r.headerEmitted cs

/-- The reasoning fragment of a chunk when it is truthy. -/
def reasoningFragment (chunk : LLMStreamChunk) : Option String :=
  if pyTruthyStr (extract_streaming_content chunk).reasoning then
    some ((extract_streaming_content chunk).reasoning.getD "")
  else none

/-- The content fragment of a chunk when it is truthy. -/
def contentFragment (chunk : LLMStreamChunk) : Option String :=
  if pyTruthyStr (extract_streaming_content chunk).content then
    some ((extract_streaming_content chunk).content.getD "")
  else none

/-- The text the reasoning branch of `on_token` passes to
`_schedule_write`, given the current header flag. -/
def reasoningDispatchText (headerEmitted : Bool) (chunk : LLMStreamChunk) :
    Option String :=
  match reasoningFragment chunk with
  | some r => some (if headerEmitted then r else REASONING_HEADER ++ r)
  | none => none

/-- The texts expected from `runFirstTexts` when every chunk carries
reasoning: the first fragment is header-prefixed, the rest are not. -/
def expectedHeaderTexts : List String → List (Option String)
  | [] => []
  | r :: rs => some (REASONING_HEADER ++ r) :: rs.map some

/-- Model of `choices.CHATGPT_PROVIDER_ID`. -/
def CHATGPT_PROVIDER_ID : String := "chatgpt-subscription"

/-- Model of `choices.CHATGPT_PROVIDER_LABEL`. -/
def CHATGPT_PROVIDER_LABEL : String := "ChatGPT Subscription"

/-- A provider-to-models table (`VERIFIED_MODELS`,
`UNVERIFIED_MODELS_EXCLUDING_BEDROCK`), modelled as an association list
since the tables are externally supplied dicts. -/
def ProviderTable := List (String × List String)

/-- The key set of a table, `set(table.keys())`. -/
def tableKeys (t : ProviderTable) : Finset String :=
  (t.map Prod.fst).toFinset

/-- Model of `table.get(provider, [])`. -/
def tableGet (t : ProviderTable) (provider : String) : List String :=
  match t.find? (fun kv => kv.fst == provider) with
  | some kv => kv.snd
  | none => []

/-- Python `sorted` on a list of strings, modelled by insertion sort with
respect to the lexicographic order. -/
def pySorted (l : List String) : List String :=
  List.insertionSort (· ≤ ·) l

/-- Python `sorted` on a set of strings, modelled by sorting the `Finset`. -/
def pySortedSet (s : Finset String) : List String :=
  s.sort (· ≤ ·)

/-- Model of `choices.get_provider_options`, parameterised by the externally
supplied tables (`VERIFIED_MODELS`, `UNVERIFIED_MODELS_EXCLUDING_BEDROCK`)
and the recognised litellm provider set `_VALID_LITELLM_PROVIDERS`. -/
def get_provider_options (VERIFIED_MODELS : ProviderTable)
    (UNVERIFIED_MODELS_EXCLUDING_BEDROCK : ProviderTable)
    (validLitellmProviders : Finset String) : List (String × String) :=
  let verified_providers := tableKeys VERIFIED_MODELS
  let unverified_providers := tableKeys UNVERIFIED_MODELS_EXCLUDING_BEDROCK
  let valid_unverified := unverified_providers ∩ validLitellmProviders
  let all_valid_providers := pySortedSet (verified_providers ∪ valid_unverified)
  (CHATGPT_PROVIDER_LABEL, CHATGPT_PROVIDER_ID) ::
    all_valid_providers.map (fun provider => (provider, provider))

/-- Model of `choices.get_chatgpt_model_options`, parameterised by the external
catalog `OPENAI_CODEX_MODELS`: `sorted(OPENAI_CODEX_MODELS)` with no
deduplication. -/
def get_chatgpt_model_options (OPENAI_CODEX_MODELS : List String) :
    List (String × String) :=
  let models := pySorted OPENAI_CODEX_MODELS
  models.map (fun model => (model, model))

/-- Model of `choices.get_model_options`, parameterised by the external tables and
catalog. -/
def get_model_options (VERIFIED_MODELS : ProviderTable)
    (UNVERIFIED_MODELS_EXCLUDING_BEDROCK : ProviderTable)
    (OPENAI_CODEX_MODELS : List String) (provider : String) :
    List (String × String) :=
  if provider = CHATGPT_PROVIDER_ID then
    get_chatgpt_model_options OPENAI_CODEX_MODELS
  else
    let models := tableGet VERIFIED_MODELS provider ++
      tableGet UNVERIFIED_MODELS_EXCLUDING_BEDROCK provider
    let unique_models := pySortedSet models.toFinset
    unique_models.map (fun model => (model, model))

/-- Model of `choices.is_chatgpt_provider` (`None` modelled as `none`). -/
def is_chatgpt_provider (provider : Option String) : Bool :=
  provider == some CHATGPT_PROVIDER_ID

/-- Whether an index attribute value is falsy in Python. -/
def pyIndexFalsy : PyIndexVal → Bool
  | .pyNone => true
  | .pyFalse => true
  | .int n => n == 0

/-- A sink that always raises. -/
def failingSink : String → Except String Unit := fun _ => .error "boom"

/-- A sink that always succeeds. -/
def okSink : String → Except String Unit := fun _ => .ok ()

/-- Streamer with a raising sink and no loop: writes run synchronously on
the calling thread. -/
def cfgFailSync : StreamerConfig := ⟨some failingSink, .noLoop⟩

/-- Streamer with a succeeding sink and no loop. -/
def cfgOkSync : StreamerConfig := ⟨some okSink, .noLoop⟩

/-- A chunk carrying both a reasoning and a content fragment. -/
def chunkBoth : LLMStreamChunk :=
  ⟨[⟨some (.int 0), some ⟨.str "r", .str "c"⟩⟩]⟩

/-- A chunk carrying only a reasoning fragment. -/
def chunkReason : LLMStreamChunk :=
  ⟨[⟨some (.int 0), some ⟨.str "t", .absent⟩⟩]⟩

/-- Unfolding equation for the extraction loop on a cons cell. -/
lemma extractLoop_cons (c : Choice) (l : List Choice) :
    extractLoop (c :: l) =
      match c.delta with
      | none => extractLoop l
      | some d => if choiceIndex c ≠ 0 then extractLoop l else extractFromDelta d := rfl

/-- Dropping the choices whose effective index is non-zero does not change
the extraction result. -/
lemma extractLoop_filter (l : List Choice) :
    extractLoop (l.filter fun c => choiceIndex c == 0) = extractLoop l := by
  induction l with
  | nil => rfl
  | cons c rest ih =>
    by_cases h : choiceIndex c = 0
    · rw [List.filter_cons_of_pos (by simpa using h), extractLoop_cons, extractLoop_cons]
      cases hd : c.delta with
      | none => simpa using ih
      | some d => simp [h]
    · rw [List.filter_cons_of_neg (by simpa using h), extractLoop_cons]
      cases hd : c.delta with
      | none => simpa using ih
      | some d => simpa [h] using ih

/-- If every index-0 choice lacks a delta, extraction returns the empty
result. -/
lemma extractLoop_empty_of_no_primary (l : List Choice)
    (h : ∀ c ∈ l, choiceIndex c = 0 → c.delta = none) :
    extractLoop l = ⟨none, none⟩ := by
  induction l with
  | nil => rfl
  | cons c rest ih =>
    rw [extractLoop_cons]
    cases hd : c.delta with
    | none => exact ih fun x hx => h x (List.mem_cons_of_mem _ hx)
    | some d =>
      by_cases hi : choiceIndex c = 0
      · exact absurd (h c (List.mem_cons_self _ _) hi) (by simp [hd])
      · simpa [hi] using ih fun x hx => h x (List.mem_cons_of_mem _ hx)

/-- C3: only the delta of a choice with effective index 0 contributes to
`extract_streaming_content`: removing all other choices leaves the result
unchanged, and if no index-0 choice carries a delta the result has both
fields absent. -/
theorem extract_only_primary_choice (chunk : LLMStreamChunk) :
    extractLoop (chunk.choices.filter fun c => choiceIndex c == 0) =
      extract_streaming_content chunk ∧
    ((∀ c ∈ chunk.choices, choiceIndex c = 0 → c.delta = none) →
      extract_streaming_content chunk = ⟨none, none⟩) :=
  ⟨extractLoop_filter chunk.choices,
    fun h => extractLoop_empty_of_no_primary chunk.choices h⟩

/-- Witness for C3 at a chunk whose choices have indices 1 and 2. -/
theorem extract_only_primary_choice_witness :
    (∀ c ∈ (⟨[⟨some (PyIndexVal.int 1), some ⟨.str "a", .str "b"⟩⟩,
        ⟨some (PyIndexVal.int 2), some ⟨.str "x", .str "y"⟩⟩]⟩ :
        LLMStreamChunk).choices, choiceIndex c = 0 → c.delta = none) ∧
    extract_streaming_content
        ⟨[⟨some (PyIndexVal.int 1), some ⟨.str "a", .str "b"⟩⟩,
          ⟨some (PyIndexVal.int 2), some ⟨.str "x", .str "y"⟩⟩]⟩ =
      ⟨none, none⟩ :=
  ⟨by decide, (extract_only_primary_choice _).2 (by decide)⟩

/-- C4: for a single index-0 choice with a delta, the reasoning field is
present iff the delta's reasoning is a string that is non-empty after
stripping, the content field is present iff the delta's content is a
non-empty string; in particular whitespace-only reasoning together with
empty content yields the empty result. -/
theorem extract_presence_conditions (d : Delta) :
    ((extract_streaming_content
        ⟨[⟨some (PyIndexVal.int 0), some d⟩]⟩).reasoning.isSome = true ↔
      ∃ s, d.reasoning_content = .str s ∧ pyStrip s ≠ "") ∧
    ((extract_streaming_content
        ⟨[⟨some (PyIndexVal.int 0), some d⟩]⟩).content.isSome = true ↔
      ∃ s, d.content = .str s ∧ s ≠ "") ∧
    extract_streaming_content
        ⟨[⟨some (PyIndexVal.int 0), some ⟨.str "  ", .str ""⟩⟩]⟩ =
      ⟨none, none⟩ := by
  refine ⟨?_, ?_, by decide⟩
  · show (extractFromDelta d).reasoning.isSome = true ↔ _
    cases hr : d.reasoning_content with
    | absent => simp [extractFromDelta, hr]
    | nonString => simp [extractFromDelta, hr]
    | str s =>
      by_cases hs : pyStrip s ≠ "" <;> simp [extractFromDelta, hr, hs]
  · show (extractFromDelta d).content.isSome = true ↔ _
    cases hc : d.content with
    | absent => simp [extractFromDelta, hc]
    | nonString => simp [extractFromDelta, hc]
    | str s =>
      by_cases hs : s ≠ "" <;> simp [extractFromDelta, hc, hs]

/-- C10: a present but falsy index value (`None`, `False`, `0`) is treated
exactly like index 0 or a missing index: the choice is the primary one and
its delta determines the result. -/
theorem falsy_index_is_primary (i : PyIndexVal) (hf : pyIndexFalsy i = true)
    (d : Delta) (rest : List Choice) :
    extract_streaming_content ⟨⟨some i, some d⟩ :: rest⟩ =
      extract_streaming_content ⟨⟨some (PyIndexVal.int 0), some d⟩ :: rest⟩ ∧
    extract_streaming_content ⟨⟨some i, some d⟩ :: rest⟩ =
      extract_streaming_content ⟨⟨none, some d⟩ :: rest⟩ ∧
    extract_streaming_content ⟨⟨some i, some d⟩ :: rest⟩ = extractFromDelta d := by
  have hi : choiceIndex ⟨some i, some d⟩ = 0 := by
    cases i with
    | pyNone => rfl
    | pyFalse => rfl
    | int n => simpa [pyIndexFalsy, choiceIndex] using hf
  have h0 : choiceIndex ⟨some (PyIndexVal.int 0), some d⟩ = 0 := rfl
  have hn : choiceIndex (⟨none, some d⟩ : Choice) = 0 := rfl
  refine ⟨?_, ?_, ?_⟩ <;>
    simp [extract_streaming_content, extractLoop_cons, hi, h0, hn]

/-- Witness for C10 at the index value `None`. -/
theorem falsy_index_is_primary_witness :
    pyIndexFalsy PyIndexVal.pyNone = true ∧
    extract_streaming_content
        ⟨[⟨some PyIndexVal.pyNone, some ⟨.str "r", .absent⟩⟩]⟩ =
      extractFromDelta ⟨.str "r", .absent⟩ :=
  ⟨by decide, (falsy_index_is_primary PyIndexVal.pyNone (by decide)
    ⟨.str "r", .absent⟩ []).2.2⟩

/-- A reasoning field in the extraction result always stems from an actual
string-valued `reasoning_content` that is non-empty after stripping. -/
lemma extractLoop_reasoning_src (l : List Choice) (r : String)
    (h : (extractLoop l).reasoning = some r) :
    ∃ c ∈ l, ∃ d, c.delta = some d ∧
      d.reasoning_content = .str r ∧ pyStrip r ≠ "" := by
  induction l with
  | nil => simp [extractLoop] at h
  | cons c rest ih =>
    rw [extractLoop_cons] at h
    cases hd : c.delta with
    | none =>
      rw [hd] at h
      obtain ⟨x, hx, hprop⟩ := ih h
      exact ⟨x, List.mem_cons_of_mem _ hx, hprop⟩
    | some d =>
      rw [hd] at h
      by_cases hi : choiceIndex c = 0
      · simp only [hi, ne_eq, not_true_eq_false, if_false, if_neg] at h
        refine ⟨c, List.mem_cons_self _ _, d, hd, ?_⟩
        cases hr : d.reasoning_content with
        | absent => simp [extractFromDelta, hr] at h
        | nonString => simp [extractFromDelta, hr] at h
        | str s =>
          by_cases hs : pyStrip s ≠ ""
          · have hsr : s = r := by simpa [extractFromDelta, hr, hs] using h
            subst hsr
            exact ⟨rfl, hs⟩
          · simp [extractFromDelta, hr, hs] at h
      · simp only [hi, ne_eq, not_false_eq_true, if_pos, if_true] at h
        obtain ⟨x, hx, hprop⟩ := ih h
        exact ⟨x, List.mem_cons_of_mem _ hx, hprop⟩

/-- A content field in the extraction result always stems from an actual
non-empty string-valued `content`. -/
lemma extractLoop_content_src (l : List Choice) (s : String)
    (h : (extractLoop l).content = some s) :
    ∃ c ∈ l, ∃ d, c.delta = some d ∧ d.content = .str s ∧ s ≠ "" := by
  induction l with
  | nil => simp [extractLoop] at h
  | cons c rest ih =>
    rw [extractLoop_cons] at h
    cases hd : c.delta with
    | none =>
      rw [hd] at h
      obtain ⟨x, hx, hprop⟩ := ih h
      exact ⟨x, List.mem_cons_of_mem _ hx, hprop⟩
    | some d =>
      rw [hd] at h
      by_cases hi : choiceIndex c = 0
      · simp only [hi, ne_eq, not_true_eq_false, if_false, if_neg] at h
        refine ⟨c, List.mem_cons_self _ _, d, hd, ?_⟩
        cases hc : d.content with
        | absent => simp [extractFromDelta, hc] at h
        | nonString => simp [extractFromDelta, hc] at h
        | str t =>
          by_cases hs : t ≠ ""
          · have hts : t = s := by simpa [extractFromDelta, hc, hs] using h
            subst hts
            exact ⟨rfl, hs⟩
          · simp [extractFromDelta, hc, hs] at h
      · simp only [hi, ne_eq, not_false_eq_true, if_pos, if_true] at h
        obtain ⟨x, hx, hprop⟩ := ih h
        exact ⟨x, List.mem_cons_of_mem _ hx, hprop⟩

/-- C8: extraction is a total pure function of the chunk; any present
result field comes from an actual well-formed string field of some choice's
delta, and malformed (non-string or absent) fields degrade to an absent
result, never a failure. -/
theorem extraction_total_wellformed (chunk : LLMStreamChunk) :
    (∀ r, (extract_streaming_content chunk).reasoning = some r →
      ∃ c ∈ chunk.choices, ∃ d, c.delta = some d ∧
        d.reasoning_content = .str r ∧ pyStrip r ≠ "") ∧
    (∀ s, (extract_streaming_content chunk).content = some s →
      ∃ c ∈ chunk.choices, ∃ d, c.delta = some d ∧
        d.content = .str s ∧ s ≠ "") ∧
    (∀ rest : List Choice,
      extractLoop (⟨some (PyIndexVal.int 0), some ⟨.nonString, .absent⟩⟩ :: rest) =
        ⟨none, none⟩) :=
  ⟨fun r h => extractLoop_reasoning_src chunk.choices r h,
   fun s h => extractLoop_content_src chunk.choices s h,
   fun _ => rfl⟩

/-- Witness for C8 at a concrete chunk with reasoning text. -/
theorem extraction_total_wellformed_witness :
    ∃ c ∈ (⟨[⟨some (PyIndexVal.int 0), some ⟨.str "hi", .absent⟩⟩]⟩ :
        LLMStreamChunk).choices,
      ∃ d, c.delta = some d ∧
        d.reasoning_content = .str "hi" ∧ pyStrip "hi" ≠ "" :=
  (extraction_total_wellformed _).1 "hi" (by decide)

/-- Whatever the sink and loop do, `_schedule_write` is always entered with
exactly the text it was asked to write. -/
lemma scheduleWrite_requested (cfg : StreamerConfig) (text : String) :
    (scheduleWrite cfg text).1.requested = [text] := by
  cases hcb : cfg.write_callback with
  | none => simp [scheduleWrite, hcb]
  | some sink =>
    cases hl : cfg.loop with
    | running => simp [scheduleWrite, hcb, hl]
    | noLoop => cases hst : sink text <;> simp [scheduleWrite, hcb, hl, hst]
    | notRunning => cases hst : sink text <;> simp [scheduleWrite, hcb, hl, hst]

/-- With no write callback the write is silently dropped and cannot fail. -/
lemma scheduleWrite_no_sink (mode : LoopMode) (text : String) :
    scheduleWrite ⟨none, mode⟩ text = (⟨[text], [], []⟩, none) := rfl

/-- Behaviour of one `on_token` call on a chunk carrying a truthy reasoning
fragment: the header flag is set, and the first text handed to
`_schedule_write` is the fragment, header-prefixed exactly when the flag
was still clear. -/
lemma on_token_reasoning (cfg : StreamerConfig) (st : Bool)
    (chunk : LLMStreamChunk) (r : String)
    (h : reasoningFragment chunk = some r) :
    (on_token cfg st chunk).headerEmitted = true ∧
    (on_token cfg st chunk).effects.requested.head? =
      some (if st then r else REASONING_HEADER ++ r) := by
  have ht : pyTruthyStr (extract_streaming_content chunk).reasoning = true := by
    by_cases ht : pyTruthyStr (extract_streaming_content chunk).reasoning = true
    · exact ht
    · rw [reasoningFragment, if_neg ht] at h
      exact absurd h (by simp)
  have hr : (extract_streaming_content chunk).reasoning.getD "" = r := by
    rw [reasoningFragment, if_pos ht] at h
    exact Option.some_inj.mp h
  rw [on_token, onTokenRaises]
  simp only [ht, if_true, hr]
  cases hsw : scheduleWrite cfg (if st then r else REASONING_HEADER ++ r) with
  | mk eff err =>
    have heff : eff.requested = [if st then r else REASONING_HEADER ++ r] := by
      have := scheduleWrite_requested cfg (if st then r else REASONING_HEADER ++ r)
      rw [hsw] at this
      exact this
    cases err with
    | some e => simp [heff]
    | none =>
      cases htc : pyTruthyStr (extract_streaming_content chunk).content with
      | false => simp [htc, heff]
      | true =>
        cases hsw2 :
            scheduleWrite cfg ((extract_streaming_content chunk).content.getD "") with
        | mk eff2 err2 =>
          cases err2 with
          | some e => simp [htc, hsw2, heff, WriteEffects.append]
          | none => simp [htc, hsw2, heff, WriteEffects.append]

/-- One `on_token` call never invokes or queues a write when no sink is
configured. -/
lemma on_token_no_sink_silent (mode : LoopMode) (st : Bool)
    (chunk : LLMStreamChunk) :
    (on_token ⟨none, mode⟩ st chunk).effects.invoked = [] ∧
    (on_token ⟨none, mode⟩ st chunk).effects.queued = [] := by
  rw [on_token, onTokenRaises]
  cases ht : pyTruthyStr (extract_streaming_content chunk).reasoning with
  | false =>
    cases htc : pyTruthyStr (extract_streaming_content chunk).content with
    | false => simp
    | true => simp [scheduleWrite_no_sink, WriteEffects.append]
  | true =>
    cases htc : pyTruthyStr (extract_streaming_content chunk).content with
    | false => simp [scheduleWrite_no_sink]
    | true => simp [scheduleWrite_no_sink, WriteEffects.append]

/-- A whole run with no sink never invokes or queues a write. -/
lemma runTokens_no_sink (mode : LoopMode) (st : Bool)
    (chunks : List LLMStreamChunk) :
    (runTokens ⟨none, mode⟩ st chunks).2.invoked = [] ∧
    (runTokens ⟨none, mode⟩ st chunks).2.queued = [] := by
  induction chunks generalizing st with
  | nil => exact ⟨rfl, rfl⟩
  | cons c cs ih =>
    have h1 := on_token_no_sink_silent mode st c
    have h2 := ih (on_token ⟨none, mode⟩ st c).headerEmitted
    rw [runTokens]
    constructor
    · show ((on_token ⟨none, mode⟩ st c).effects.append _).invoked = []
      rw [WriteEffects.append]
      simp only [h1.1, h2.1]
      rfl
    · show ((on_token ⟨none, mode⟩ st c).effects.append _).queued = []
      rw [WriteEffects.append]
      simp only [h1.2, h2.2]
      rfl

/-- Once the header flag is set, a run over reasoning-carrying chunks
schedules each raw fragment with no header. -/
lemma runFirstTexts_all_emitted (cfg : StreamerConfig)
    (chunks : List LLMStreamChunk)
    (h : ∀ c ∈ chunks, (reasoningFragment c).isSome) :
    runFirstTexts cfg true chunks = (chunks.filterMap reasoningFragment).map some := by
  induction chunks with
  | nil => rfl
  | cons c cs ih =>
    obtain ⟨r, hr⟩ :=
      Option.isSome_iff_exists.mp (h c (List.mem_cons_self _ _))
    have h1 := on_token_reasoning cfg true c r hr
    rw [runFirstTexts, List.filterMap_cons, hr]
    rw [h1.1, h1.2, ih fun x hx => h x (List.mem_cons_of_mem _ hx)]
    simp

/-- C1: across a run in which every chunk carries a truthy reasoning
fragment, starting from a clear header flag, the fixed header is prefixed
to the first fragment only; `reset` clears the flag, so a run that starts
right after a `reset` prefixes the header to its first fragment again. -/
theorem header_emitted_once_per_response (cfg : StreamerConfig)
    (chunks : List LLMStreamChunk)
    (h : ∀ c ∈ chunks, (reasoningFragment c).isSome) :
    runFirstTexts cfg false chunks =
      expectedHeaderTexts (chunks.filterMap reasoningFragment) ∧
    ∀ st : Bool,
      runFirstTexts cfg (TUITokenStreamer.reset st) chunks =
        expectedHeaderTexts (chunks.filterMap reasoningFragment) := by
  have main : runFirstTexts cfg false chunks =
      expectedHeaderTexts (chunks.filterMap reasoningFragment) := by
    cases chunks with
    | nil => rfl
    | cons c cs =>
      obtain ⟨r, hr⟩ :=
        Option.isSome_iff_exists.mp (h c (List.mem_cons_self _ _))
      have h1 := on_token_reasoning cfg false c r hr
      rw [runFirstTexts, List.filterMap_cons, hr, expectedHeaderTexts]
      rw [h1.1, h1.2,
        runFirstTexts_all_emitted cfg cs fun x hx => h x (List.mem_cons_of_mem _ hx)]
      simp
  exact ⟨main, fun _ => main⟩

/-- Witness for C1: two consecutive reasoning chunks, then a reset. -/
theorem header_emitted_once_per_response_witness :
    (∀ c ∈ [chunkReason, chunkReason], (reasoningFragment c).isSome) ∧
    runFirstTexts cfgOkSync false [chunkReason, chunkReason] =
      [some (REASONING_HEADER ++ "t"), some "t"] ∧
    runFirstTexts cfgOkSync (TUITokenStreamer.reset true) [chunkReason, chunkReason] =
      [some (REASONING_HEADER ++ "t"), some "t"] := by
  have h := header_emitted_once_per_response cfgOkSync [chunkReason, chunkReason]
    (by decide)
  exact ⟨by decide, h.1, h.2 true⟩

/-- C2: `on_token` returns normally for every configuration, state and
chunk; its only log entries are at warning level, a raising body is caught
and turned into exactly one warning that preserves the partially updated
state and effects, and a non-raising body produces no log entry. -/
theorem on_token_never_propagates (cfg : StreamerConfig) (st : Bool)
    (chunk : LLMStreamChunk) :
    (on_token cfg st chunk).logs.all LogEntry.isWarning = true ∧
    (∀ e st' eff, onTokenRaises cfg st chunk = .error (e, st', eff) →
      on_token cfg st chunk =
        ⟨st', eff, [.warning ("Token streaming error: " ++ e)]⟩) ∧
    (∀ st' eff, onTokenRaises cfg st chunk = .ok (st', eff) →
      on_token cfg st chunk = ⟨st', eff, []⟩) := by
  refine ⟨?_, ?_, ?_⟩
  · rw [on_token]
    cases hres : onTokenRaises cfg st chunk with
    | error x =>
      obtain ⟨e, st', eff⟩ := x
      simp [LogEntry.isWarning]
    | ok r =>
      obtain ⟨st', eff⟩ := r
      simp
  · intro e st' eff hres
    rw [on_token, hres]
  · intro st' eff hres
    rw [on_token, hres]

/-- Witness for C2: a synchronously raising sink makes the body raise, and
`on_token` still returns, with one warning recording the failure. -/
theorem on_token_never_propagates_witness :
    onTokenRaises cfgFailSync false chunkBoth =
      .error ("boom", true,
        ⟨[REASONING_HEADER ++ "r"], [REASONING_HEADER ++ "r"], []⟩) ∧
    on_token cfgFailSync false chunkBoth =
      ⟨true, ⟨[REASONING_HEADER ++ "r"], [REASONING_HEADER ++ "r"], []⟩,
        [.warning ("Token streaming error: " ++ "boom")]⟩ :=
  ⟨rfl, (on_token_never_propagates cfgFailSync false chunkBoth).2.1
    "boom" true ⟨[REASONING_HEADER ++ "r"], [REASONING_HEADER ++ "r"], []⟩ rfl⟩

/-- Counterexample to C5 as stated: when the sink raises synchronously
while the reasoning fragment is being written, the content fragment of the
same chunk is never passed to `_schedule_write`. -/
theorem content_dropped_when_sink_raises :
    contentFragment chunkBoth = some "c" ∧
    (on_token cfgFailSync false chunkBoth).effects.requested =
      [REASONING_HEADER ++ "r"] ∧
    ¬ "c" ∈ (on_token cfgFailSync false chunkBoth).effects.requested := by
  refine ⟨rfl, rfl, ?_⟩
  intro hmem
  simp only [show (on_token cfgFailSync false chunkBoth).effects.requested =
    [REASONING_HEADER ++ "r"] from rfl] at hmem
  rw [List.mem_singleton] at hmem
  exact absurd hmem (by decide)

/-- C5 (amended): provided scheduling the reasoning text does not raise,
the texts passed to `_schedule_write` in one `on_token` call are exactly
the (possibly header-prefixed) reasoning fragment followed by the content
fragment, so a truthy content fragment is always scheduled, after the
reasoning fragment. -/
theorem content_dispatch_after_reasoning (cfg : StreamerConfig) (st : Bool)
    (chunk : LLMStreamChunk)
    (h : ∀ t, reasoningDispatchText st chunk = some t →
      (scheduleWrite cfg t).2 = none) :
    (on_token cfg st chunk).effects.requested =
      (reasoningDispatchText st chunk).toList ++ (contentFragment chunk).toList := by
  rw [on_token, onTokenRaises]
  cases ht : pyTruthyStr (extract_streaming_content chunk).reasoning with
  | false =>
    have hrd : reasoningDispatchText st chunk = none := by
      rw [reasoningDispatchText, reasoningFragment, ht]
      rfl
    rw [hrd]
    cases htc : pyTruthyStr (extract_streaming_content chunk).content with
    | false =>
      have hcf : contentFragment chunk = none := by rw [contentFragment, htc]; rfl
      simp [hcf]
    | true =>
      have hcf : contentFragment chunk =
          some ((extract_streaming_content chunk).content.getD "") := by
        simp [contentFragment, htc]
      cases hsw : scheduleWrite cfg ((extract_streaming_content chunk).content.getD "") with
      | mk eff2 err2 =>
        have heff2 : eff2.requested =
            [(extract_streaming_content chunk).content.getD ""] := by
          have h' := scheduleWrite_requested cfg
            ((extract_streaming_content chunk).content.getD "")
          rw [hsw] at h'
          exact h'
        cases err2 with
        | some e => simp [hcf, hsw, heff2, WriteEffects.append]
        | none => simp [hcf, hsw, heff2, WriteEffects.append]
  | true =>
    have hrd : reasoningDispatchText st chunk =
        some (if st then (extract_streaming_content chunk).reasoning.getD ""
          else REASONING_HEADER ++ (extract_streaming_content chunk).reasoning.getD "") := by
      rw [reasoningDispatchText, reasoningFragment, ht]
      rfl
    have hok := h _ hrd
    cases hsw : scheduleWrite cfg
        (if st then (extract_streaming_content chunk).reasoning.getD ""
          else REASONING_HEADER ++ (extract_streaming_content chunk).reasoning.getD "") with
    | mk eff1 err1 =>
      have heff1 : eff1.requested =
          [if st then (extract_streaming_content chunk).reasoning.getD ""
            else REASONING_HEADER ++ (extract_streaming_content chunk).reasoning.getD ""] := by
        have h' := scheduleWrite_requested cfg
          (if st then (extract_streaming_content chunk).reasoning.getD ""
            else REASONING_HEADER ++ (extract_streaming_content chunk).reasoning.getD "")
        rw [hsw] at h'
        exact h'
      have herr1 : err1 = none := by rw [hsw] at hok; exact hok
      subst herr1
      cases htc : pyTruthyStr (extract_streaming_content chunk).content with
      | false =>
        have hcf : contentFragment chunk = none := by rw [contentFragment, htc]; rfl
        simp [hrd, hcf, hsw, heff1]
      | true =>
        have hcf : contentFragment chunk =
            some ((extract_streaming_content chunk).content.getD "") := by
          simp [contentFragment, htc]
        cases hsw2 : scheduleWrite cfg
            ((extract_streaming_content chunk).content.getD "") with
        | mk eff2 err2 =>
          have heff2 : eff2.requested =
              [(extract_streaming_content chunk).content.getD ""] := by
            have h' := scheduleWrite_requested cfg
              ((extract_streaming_content chunk).content.getD "")
            rw [hsw2] at h'
            exact h'
          cases err2 with
          | some e => simp [hrd, hcf, hsw, hsw2, heff1, heff2, WriteEffects.append]
          | none => simp [hrd, hcf, hsw, hsw2, heff1, heff2, WriteEffects.append]

/-- Witness for the amended C5: with a succeeding sink, a chunk carrying
both fragments schedules the header-prefixed reasoning text first and the
content text second. -/
theorem content_dispatch_after_reasoning_witness :
    (∀ t, reasoningDispatchText false chunkBoth = some t →
      (scheduleWrite cfgOkSync t).2 = none) ∧
    (on_token cfgOkSync false chunkBoth).effects.requested =
      (reasoningDispatchText false chunkBoth).toList ++
        (contentFragment chunkBoth).toList :=
  ⟨fun _ _ => rfl,
    content_dispatch_after_reasoning cfgOkSync false chunkBoth fun _ _ => rfl⟩

/-- C9: with no write callback, a reasoning chunk still sets the header
flag even though nothing is invoked or queued; for the rest of the
response no write is ever delivered, and later reasoning fragments are
scheduled without the header. -/
theorem header_flag_set_without_sink (mode : LoopMode)
    (chunk : LLMStreamChunk) (r : String)
    (h : reasoningFragment chunk = some r)
    (chunks : List LLMStreamChunk)
    (hall : ∀ c ∈ chunks, (reasoningFragment c).isSome) :
    (on_token ⟨none, mode⟩ false chunk).headerEmitted = true ∧
    (on_token ⟨none, mode⟩ false chunk).effects.invoked = [] ∧
    (on_token ⟨none, mode⟩ false chunk).effects.queued = [] ∧
    (runTokens ⟨none, mode⟩ (on_token ⟨none, mode⟩ false chunk).headerEmitted
      chunks).2.invoked = [] ∧
    (runTokens ⟨none, mode⟩ (on_token ⟨none, mode⟩ false chunk).headerEmitted
      chunks).2.queued = [] ∧
    runFirstTexts ⟨none, mode⟩ (on_token ⟨none, mode⟩ false chunk).headerEmitted
      chunks = (chunks.filterMap reasoningFragment).map some := by
  have h1 := on_token_reasoning ⟨none, mode⟩ false chunk r h
  have h2 := on_token_no_sink_silent mode false chunk
  have h3 := runTokens_no_sink mode
    (on_token ⟨none, mode⟩ false chunk).headerEmitted chunks
  refine ⟨h1.1, h2.1, h2.2, h3.1, h3.2, ?_⟩
  rw [h1.1]
  exact runFirstTexts_all_emitted ⟨none, mode⟩ chunks hall

/-- Witness for C9: a silent streamer over two reasoning chunks. -/
theorem header_flag_set_without_sink_witness :
    reasoningFragment chunkReason = some "t" ∧
    (∀ c ∈ [chunkReason], (reasoningFragment c).isSome) ∧
    (on_token ⟨none, .noLoop⟩ false chunkReason).headerEmitted = true ∧
    runFirstTexts ⟨none, .noLoop⟩
      (on_token ⟨none, .noLoop⟩ false chunkReason).headerEmitted [chunkReason] =
      [some "t"] := by
  have h := header_flag_set_without_sink LoopMode.noLoop chunkReason "t"
    (by decide) [chunkReason] (by decide)
  exact ⟨by decide, by decide, h.1, by
    rw [h.2.2.2.2.2]
    decide⟩

/-- C6: the provider list always starts with the synthetic ChatGPT
subscription entry, and its remaining entries are the (name, name) pairs of
exactly the union of the verified provider keys with the intersection of
the unverified provider keys and the recognised litellm provider set,
strictly sorted with no duplicates. -/
theorem provider_options_shape (verified unverified : ProviderTable)
    (validLitellm : Finset String) :
    (get_provider_options verified unverified validLitellm).head? =
      some ("ChatGPT Subscription", "chatgpt-subscription") ∧
    List.Sorted (· < ·)
      ((get_provider_options verified unverified validLitellm).tail.map Prod.fst) ∧
    (get_provider_options verified unverified validLitellm).tail.Nodup ∧
    ∀ x, x ∈ (get_provider_options verified unverified validLitellm).tail ↔
      x.1 = x.2 ∧
        x.1 ∈ tableKeys verified ∪ (tableKeys unverified ∩ validLitellm) := by
  have htail : (get_provider_options verified unverified validLitellm).tail =
      ((tableKeys verified ∪ (tableKeys unverified ∩ validLitellm)).sort
        (· ≤ ·)).map (fun provider => (provider, provider)) := rfl
  refine ⟨rfl, ?_, ?_, ?_⟩
  · rw [htail, List.map_map]
    have hid : (Prod.fst ∘ fun provider => (provider, provider)) =
        (id : String → String) := rfl
    rw [hid, List.map_id]
    exact Finset.sort_sorted_lt _
  · rw [htail]
    refine List.Nodup.map ?_ (Finset.sort_nodup _ _)
    intro a b hab
    exact congrArg Prod.fst hab
  · intro x
    rw [htail]
    constructor
    · intro hx
      obtain ⟨p, hp, hpx⟩ := List.mem_map.mp hx
      subst hpx
      exact ⟨rfl, Finset.mem_sort (α := String) (· ≤ ·) |>.mp hp⟩
    · rintro ⟨h12, hmem⟩
      refine List.mem_map.mpr ⟨x.1, ?_, ?_⟩
      · exact Finset.mem_sort (α := String) (· ≤ ·) |>.mpr hmem
      · exact Prod.ext rfl h12

/-- Counterexample to C7 as stated: with a catalog containing a duplicate,
`get_model_options` for the subscription provider keeps the duplicate, so
its result is not the deduplicated sorted catalog. -/
theorem chatgpt_models_not_deduplicated :
    get_model_options [] [] ["a", "a"] CHATGPT_PROVIDER_ID =
      [("a", "a"), ("a", "a")] ∧
    ¬ (get_model_options [] [] ["a", "a"] CHATGPT_PROVIDER_ID).Nodup ∧
    get_model_options [] [] ["a", "a"] CHATGPT_PROVIDER_ID ≠
      [("a", "a")] := by
  have hsort : pySorted ["a", "a"] = ["a", "a"] := by
    simp [pySorted, List.insertionSort, List.orderedInsert]
  have heq : get_model_options [] [] ["a", "a"] CHATGPT_PROVIDER_ID =
      [("a", "a"), ("a", "a")] := by
    show (pySorted ["a", "a"]).map (fun model => (model, model)) = _
    rw [hsort]
    rfl
  refine ⟨heq, ?_, ?_⟩
  · intro h
    rw [heq] at h
    simp at h
  · rw [heq]
    simp

/-- C7 (amended): for the subscription provider id, `get_model_options`
returns the catalog sorted (duplicates preserved) and mapped to
(name, name) pairs, without consulting the provider tables; it is
duplicate-free exactly insofar as the catalog is. -/
theorem chatgpt_model_options_sorted (verified unverified : ProviderTable)
    (verifiedB unverifiedB : ProviderTable) (catalog : List String) :
    get_model_options verified unverified catalog CHATGPT_PROVIDER_ID =
      (pySorted catalog).map (fun model => (model, model)) ∧
    get_model_options verified unverified catalog CHATGPT_PROVIDER_ID =
      get_model_options verifiedB unverifiedB catalog CHATGPT_PROVIDER_ID ∧
    List.Sorted (· ≤ ·)
      ((get_model_options verified unverified catalog
        CHATGPT_PROVIDER_ID).map Prod.fst) ∧
    ((get_model_options verified unverified catalog
      CHATGPT_PROVIDER_ID).map Prod.fst).Perm catalog ∧
    (catalog.Nodup →
      (get_model_options verified unverified catalog
        CHATGPT_PROVIDER_ID).Nodup) := by
  have heq : get_model_options verified unverified catalog CHATGPT_PROVIDER_ID =
      (pySorted catalog).map (fun model => (model, model)) := rfl
  have hfst : (get_model_options verified unverified catalog
      CHATGPT_PROVIDER_ID).map Prod.fst = pySorted catalog := by
    rw [heq, List.map_map]
    have hid : (Prod.fst ∘ fun model => (model, model)) =
        (id : String → String) := rfl
    rw [hid, List.map_id]
  refine ⟨heq, rfl, ?_, ?_, ?_⟩
  · rw [hfst]
    exact List.sorted_insertionSort (· ≤ ·) catalog
  · rw [hfst]
    exact List.perm_insertionSort (· ≤ ·) catalog
  · intro hnd
    rw [heq]
    refine List.Nodup.map ?_ ?_
    · intro a b hab
      exact congrArg Prod.fst hab
    · exact ((List.perm_insertionSort (· ≤ ·) catalog).nodup_iff).mpr hnd

/-- Witness for the amended C7 at a two-element catalog. -/
theorem chatgpt_model_options_sorted_witness :
    (["b", "a"] : List String).Nodup ∧
    get_model_options [] [] ["b", "a"] CHATGPT_PROVIDER_ID =
      [("a", "a"), ("b", "b")] ∧
    (get_model_options [] [] ["b", "a"] CHATGPT_PROVIDER_ID).Nodup := by
  have hab : ("a" : String) < "b" := String.lt_iff_toList_lt.mpr (by decide)
  have hsort : pySorted ["b", "a"] = ["a", "b"] := by
    simp [pySorted, List.insertionSort, List.orderedInsert, not_le.mpr hab]
  refine ⟨by decide, ?_, (chatgpt_model_options_sorted [] [] [] [] ["b", "a"]).2.2.2.2 (by decide)⟩
  show (pySorted ["b", "a"]).map (fun model => (model, model)) = _
  rw [hsort]
  rfl

end OpenHandsCLI
